import Mathlib

/-!
# Verification of the mqtt-dashboard subscription/routing core

Shallow embedding of `src/mqtt_dashboard/main.py`:

* `topicMatches`   embeds `MqttDashboardWindow._topic_matches` (MQTT wildcard matching);
* `addValue`       embeds `SparklineWidget.add_value` (bounded deque of capacity 50);
* `setValue`       embeds `GaugeWidget.set_value` (clamp to `[0, 100]`);
* `updateWidget`   embeds `TopicWidget.update`;
* `addTopicWidget` embeds `MqttDashboardWindow._add_topic_widget`;
* `handleMessage`  embeds `MqttDashboardWindow._handle_message`;
* `subscribeTopic` embeds `MqttDashboardWindow._subscribe_topic`;
* `saveConfig` / `loadConfig` embed `_save_config` / `_load_config`.

Python strings are Lean `String` (`str.split("/")` is `splitSlash`,
`str.strip()` is `pyStrip`, both kernel-computable),
the insertion-ordered dict `topic_widgets` is an association list, Python
floats are modelled as `ℚ`, and the fallible library calls at the boundary
(`float(...)`, `int(...)`, `open`/`json.load`) are modelled as `Option`- or
`Except`-valued functions; the load path distinguishes the exceptions the
source catches from those it lets propagate.
-/

namespace MqttDashboard

/-- Helper for `splitSlash`: walk the characters, collecting the current
segment (in reverse) and emitting it at every `'/'`. -/
def splitSlashAux : List Char → List Char → List String
  | [], acc => [⟨acc.reverse⟩]
  | c :: cs, acc =>
    if c = '/' then ⟨acc.reverse⟩ :: splitSlashAux cs []
    else splitSlashAux cs (c :: acc)

/-- Python `s.split("/")` with an explicit separator: every occurrence of
`'/'` delimits a segment, so `"".split("/") == [""]` and
`"/".split("/") == ["", ""]`. -/
def splitSlash (s : String) : List String := splitSlashAux s.data []

/-- Python `s.strip()`: drop leading and trailing whitespace. -/
def pyStrip (s : String) : String :=
  ⟨((s.data.dropWhile Char.isWhitespace).reverse.dropWhile
      Char.isWhitespace).reverse⟩

/-- Segment-wise walk of `_topic_matches` (main.py lines 301-310): iterate over
the pattern segments; `"#"` succeeds immediately, running past the end of the
topic fails, `"+"` skips one topic segment, a literal must be equal; after the
walk both lists must have been exhausted together (`len(pp) == len(tp)`). -/
def matchSegs : List String → List String → Bool
  | [], [] => true
  | [], _ :: _ => false
  | p :: ps, ts =>
    if p = "#" then true
    else
      match ts with
      | [] => false
      | t :: ts => if p = "+" then matchSegs ps ts
                   else if p = t then matchSegs ps ts
                   else false

/-- `MqttDashboardWindow._topic_matches(pattern, topic)` (main.py lines
295-310): a `"#"` fast path, then the segment walk over the `/`-split of
pattern and topic. -/
def topicMatches (pattern topic : String) : Bool :=
  if pattern = "#" then true
  else matchSegs (splitSlash pattern) (splitSlash topic)

theorem matchSegs_nil_nil : matchSegs [] [] = true := rfl

theorem matchSegs_refl (l : List String) : matchSegs l l = true := by
  induction l with
  | nil => rfl
  | cons p ps ih =>
    by_cases hh : p = "#"
    · simp [matchSegs, hh]
    · by_cases hp : p = "+" <;> simp [matchSegs, hh, hp, ih]

theorem topicMatches_refl (s : String) : topicMatches s s = true := by
  unfold topicMatches
  split
  · rfl
  · exact matchSegs_refl _

/-- With no `"#"` segment in the pattern, the walk succeeds iff the two
segment lists have equal length and agree (up to `"+"`) at every index. -/
theorem matchSegs_no_hash (ps ts : List String) (h : "#" ∉ ps) :
    matchSegs ps ts = true ↔
      ps.length = ts.length ∧
        ∀ i, (h1 : i < ps.length) → (h2 : i < ts.length) →
          ps[i] = "+" ∨ ps[i] = ts[i] := by
  induction ps generalizing ts with
  | nil =>
    cases ts with
    | nil => simp [matchSegs]
    | cons t ts => simp [matchSegs]
  | cons p ps ih =>
    have hp : p ≠ "#" := fun hc => h (hc ▸ List.mem_cons_self p ps)
    have hps : "#" ∉ ps := fun hc => h (List.mem_cons_of_mem p hc)
    cases ts with
    | nil => simp [matchSegs, hp]
    | cons t ts =>
      have step : matchSegs (p :: ps) (t :: ts) = true ↔
          (p = "+" ∨ p = t) ∧ matchSegs ps ts = true := by
        by_cases hplus : p = "+"
        · simp [matchSegs, hp, hplus]
        · by_cases heq : p = t
          · subst heq
            simp [matchSegs, hp, hplus]
          · simp [matchSegs, hp, hplus, heq]
      rw [step, ih ts hps]
      constructor
      · rintro ⟨hpt, hlen, hidx⟩
        refine ⟨by simpa using hlen, ?_⟩
        intro i h1 h2
        cases i with
        | zero => simpa using hpt
        | succ j =>
          have := hidx j (Nat.lt_of_succ_lt_succ h1) (Nat.lt_of_succ_lt_succ h2)
          simpa using this
      · rintro ⟨hlen, hidx⟩
        have hpt := hidx 0 (Nat.succ_pos _) (Nat.succ_pos _)
        refine ⟨by simpa using hpt, by simpa using hlen, ?_⟩
        intro j h1 h2
        have := hidx (j + 1) (Nat.succ_lt_succ h1) (Nat.succ_lt_succ h2)
        simpa using this

/-- If the walk over the pattern segments reaches a `"#"` segment at index
`j` (every earlier segment is within the topic and is `"+"` or a literal
match), the walk returns `true` no matter how many topic segments remain. -/
theorem matchSegs_hash_reached (ps ts : List String) (j : Nat) (hj : j < ps.length)
    (hjt : j ≤ ts.length) (hhash : ps[j] = "#")
    (hpre : ∀ i, (h1 : i < j) → (h2 : i < ps.length) → (h3 : i < ts.length) →
      ps[i] = "+" ∨ ps[i] = ts[i]) :
    matchSegs ps ts = true := by
  induction ps generalizing ts j with
  | nil => exact absurd hj (Nat.not_lt_zero j)
  | cons p ps ih =>
    cases j with
    | zero =>
      have : p = "#" := by simpa using hhash
      cases ts <;> simp [matchSegs, this]
    | succ j =>
      cases ts with
      | nil => exact absurd hjt (by simp)
      | cons t ts =>
        have hrest : matchSegs ps ts = true := by
          refine ih ts j (Nat.lt_of_succ_lt_succ hj) (Nat.le_of_succ_le_succ hjt)
            (by simpa using hhash) ?_
          intro i h1 h2 h3
          have := hpre (i + 1) (Nat.succ_lt_succ h1) (Nat.succ_lt_succ h2)
            (Nat.succ_lt_succ h3)
          simpa using this
        have hseg0 := hpre 0 (Nat.succ_pos j) (Nat.succ_pos _) (Nat.succ_pos _)
        by_cases hh : p = "#"
        · simp [matchSegs, hh]
        · have hseg : p = "+" ∨ p = t := by simpa using hseg0
          rcases hseg with hplus | heq
          · simp [matchSegs, hh, hplus, hrest]
          · subst heq
            by_cases hplus : p = "+" <;> simp [matchSegs, hh, hplus, hrest]

/-- `"#"` as a whole pattern matches every topic (fast path at line 297). -/
theorem topicMatches_hash_all (t : String) : topicMatches "#" t = true := by
  simp [topicMatches]

/-! ## Live value stores -/

/-- An inbound payload at the routing boundary: the decoded text of the
message together with the result of Python `float(...)` on it (`none` models
`ValueError`/`TypeError`); floats are modelled as `ℚ`. -/
structure Payload where
  text : String
  parsed : Option ℚ
deriving DecidableEq

/-- `SparklineWidget.add_value` (main.py lines 33-38): `float(val)` is
appended to a `deque(maxlen=50)`; on `ValueError`/`TypeError` the history is
left untouched. A full deque evicts from the left on append. -/
def addValue (vals : List ℚ) (p : Payload) : List ℚ :=
  match p.parsed with
  | none => vals
  | some q => if vals.length < 50 then vals ++ [q]
              else vals.drop (vals.length - 49) ++ [q]

/-- `GaugeWidget.set_value` (main.py lines 68-73):
`self.value = max(0, min(100, float(val)))`, with parse failures leaving the
stored value untouched. -/
def setValue (value : ℚ) (p : Payload) : ℚ :=
  match p.parsed with
  | none => value
  | some q => max 0 (min 100 q)

theorem addValue_length_le (vals : List ℚ) (p : Payload) (h : vals.length ≤ 50) :
    (addValue vals p).length ≤ 50 := by
  unfold addValue
  match p.parsed with
  | none => exact h
  | some q =>
    by_cases hlt : vals.length < 50
    · simp [hlt]
      omega
    · simp [hlt]
      omega

theorem foldl_addValue_length_le (ps : List Payload) (acc : List ℚ)
    (h : acc.length ≤ 50) : (List.foldl addValue acc ps).length ≤ 50 := by
  induction ps generalizing acc with
  | nil => exact h
  | cons p ps ih => exact ih (addValue acc p) (addValue_length_le acc p h)

/-- Pushing numeric samples from the left-bounded deque keeps exactly the
last 50 of everything ever appended. -/
theorem foldl_addValue_num (qs : List ℚ) (acc : List ℚ) (texts : List String)
    (h : acc.length ≤ 50) (hlen : texts.length = qs.length) :
    List.foldl addValue acc (List.zipWith Payload.mk texts (qs.map some)) =
      (acc ++ qs).drop (acc.length + qs.length - 50) := by
  induction qs generalizing acc texts with
  | nil =>
    cases texts with
    | nil => simp [Nat.sub_eq_zero_of_le h]
    | cons s ss => simp at hlen
  | cons q qs ih =>
    cases texts with
    | nil => simp at hlen
    | cons s ss =>
      have hlen' : ss.length = qs.length := by simpa using hlen
      simp only [List.map_cons, List.zipWith_cons_cons, List.foldl_cons]
      have hstep : addValue acc ⟨s, some q⟩ =
          (acc ++ [q]).drop (acc.length + 1 - 50) := by
        show (if acc.length < 50 then acc ++ [q]
              else acc.drop (acc.length - 49) ++ [q]) = _
        by_cases hlt : acc.length < 50
        · have h0 : acc.length + 1 - 50 = 0 := by omega
          simp [hlt, h0]
        · have h49 : acc.length - 49 = acc.length + 1 - 50 := by omega
          rw [if_neg hlt, List.drop_append_of_le_length (by omega), h49]
      rw [hstep, ih _ ss (by simp [List.length_drop]; omega) hlen']
      have hd : acc.length + 1 - 50 ≤ (acc ++ [q]).length := by
        simp
        omega
      rw [← List.drop_append_of_le_length hd, List.drop_drop]
      have hassoc : acc ++ [q] ++ qs = acc ++ q :: qs := by
        rw [List.append_assoc]
        rfl
      rw [hassoc]
      congr 1
      rw [List.length_drop]
      simp only [List.length_append, List.length_cons, List.length_nil]
      omega

/-! ## Topic widgets and the subscription registry -/

/-- `TopicWidget` (main.py lines 100-141): the per-subscription visual state
reachable from `update` — the value label, the timestamp label, and the
kind-specific gauge value / sparkline history (their initial values are `0`
and the empty deque). -/
structure Widget where
  topic : String
  widgetType : String
  valueLabel : String
  tsLabel : String
  gaugeValue : ℚ
  sparkValues : List ℚ
deriving DecidableEq

/-- `TopicWidget.__init__(topic, widget_type)`: gauge and sparkline cards
start with label `"--"`, text cards with `"Waiting..."`; the gauge starts at
`0` and the sparkline history empty. -/
def newTopicWidget (topic widgetType : String) : Widget :=
  { topic := topic
    widgetType := widgetType
    valueLabel := if widgetType = "gauge" then "--"
                  else if widgetType = "sparkline" then "--"
                  else "Waiting..."
    tsLabel := ""
    gaugeValue := 0
    sparkValues := [] }

/-- `TopicWidget.update(payload)` (main.py lines 135-141): set the value
label to the first 500 characters of the payload, stamp the time, then
forward to the kind-specific store. `now` is the formatted wall-clock
string. -/
def updateWidget (w : Widget) (payload : Payload) (now : String) : Widget :=
  let w1 := { w with valueLabel := payload.text.take 500, tsLabel := now }
  if w.widgetType = "gauge" then
    { w1 with gaugeValue := setValue w.gaugeValue payload }
  else if w.widgetType = "sparkline" then
    { w1 with sparkValues := addValue w.sparkValues payload }
  else w1

/-- The registry `self.topic_widgets`: a Python dict from pattern to widget,
modelled as an insertion-ordered association list with unique keys. -/
abbrev Registry := List (String × Widget)

/-- `MqttDashboardWindow._add_topic_widget(topic, wtype)` (main.py lines
322-327): a no-op when the pattern is already a key of `topic_widgets`,
otherwise append a fresh widget under that key. -/
def addTopicWidget (reg : Registry) (topic wtype : String) : Registry :=
  if (reg : List (String × Widget)).any (fun e => e.1 == topic) then reg
  else reg ++ [(topic, newTopicWidget topic wtype)]

/-- `MqttDashboardWindow._handle_message(topic, payload)` (main.py lines
284-293): update every registered widget whose pattern equals the topic or
wildcard-matches it, then append a line to the message log. -/
def handleMessage (reg : Registry) (log : List String) (topic : String)
    (payload : Payload) (now : String) : Registry × List String :=
  ((reg : List (String × Widget)).map fun e =>
      if topic == e.1 || topicMatches e.1 topic then
        (e.1, updateWidget e.2 payload now)
      else e,
   log ++ ["[" ++ now ++ "] " ++ topic ++ ": " ++ payload.text])

/-- The window state touched by the subscribe and save actions: the text of
the host, port and subscribe entries, the selected index of the
three-element kind drop-down, whether an MQTT client object exists
(`self.client is not None`), and the registry `self.topic_widgets`. -/
structure WindowState where
  hostText : String
  portText : String
  subText : String
  typeSelected : Fin 3
  hasClient : Bool
  topicWidgets : Registry

/-- `MqttDashboardWindow._subscribe_topic` (main.py lines 312-320): strip the
entry text; an empty result returns immediately; otherwise create the widget
(duplicate-safe) and, when a client exists, issue one transport subscribe
call. Returns the new state and the list of transport subscribe calls. -/
def subscribeTopic (st : WindowState) : WindowState × List String :=
  let topic := pyStrip st.subText
  if topic = "" then (st, [])
  else
    let wtype := ["text", "gauge", "sparkline"].get st.typeSelected
    ({ st with topicWidgets := addTopicWidget st.topicWidgets topic wtype },
     if st.hasClient then [topic] else [])

/-! ## Config persistence

`_save_config` serializes `{host, port, subscriptions}` with `json.dump`;
`_load_config` reads it back with `json.load`. JSON values are modelled by
`Json` (the shapes the config uses), a file on disk either holds a
well-formed JSON document or text `json.load` rejects, and the filesystem is
a map from paths to file contents. `json.dump`/`json.load` are mutually
inverse on the values the program writes, so a saved document is read back
as the same `Json` value. -/

/-- JSON values as used by the config file. -/
inductive Json where
  | str : String → Json
  | int : Int → Json
  | arr : List Json → Json
  | obj : List (String × Json) → Json

/-- What a file's bytes can hold: bytes that are not valid UTF-8 (reading
them in text mode raises `UnicodeDecodeError`), text that decodes but that
`json.load` rejects with `json.JSONDecodeError`, or a well-formed JSON
document. -/
inductive FileContent where
  | undecodable : FileContent
  | malformedJson : FileContent
  | wellFormed : Json → FileContent

/-- What a path names on disk: nothing (`open` raises `FileNotFoundError`),
a file the process may not read (`open` raises `PermissionError`), a
directory (`open` raises `IsADirectoryError`), or a readable regular file
with some content. -/
inductive PathState where
  | missing : PathState
  | unreadable : PathState
  | directory : PathState
  | file : FileContent → PathState

/-- The filesystem as `_load_config` and `_save_config` see it. -/
def FileSys := String → PathState

/-- The exceptions `open(path)` followed by `json.load(f)` can raise.
`_load_config` catches only `fileNotFoundError` and `jsonDecodeError`
(main.py line 354); the others propagate to its caller. -/
inductive PyErr where
  | fileNotFoundError : PyErr
  | permissionError : PyErr
  | isADirectoryError : PyErr
  | unicodeDecodeError : PyErr
  | jsonDecodeError : PyErr
deriving DecidableEq

/-- `open(path)` followed by `json.load(f)`, with each failure mode raising
its exception. -/
def openAndParse (fs : FileSys) (path : String) : Except PyErr Json :=
  match fs path with
  | .missing => .error .fileNotFoundError
  | .unreadable => .error .permissionError
  | .directory => .error .isADirectoryError
  | .file .undecodable => .error .unicodeDecodeError
  | .file .malformedJson => .error .jsonDecodeError
  | .file (.wellFormed j) => .ok j

/-- `MqttDashboardWindow._load_config` (main.py lines 350-355): try to open
and parse; `except (FileNotFoundError, json.JSONDecodeError): return {}`;
every other exception propagates to the caller. -/
def loadConfig (fs : FileSys) (path : String) : Except PyErr Json :=
  match openAndParse fs path with
  | .ok j => .ok j
  | .error .fileNotFoundError => .ok (Json.obj [])
  | .error .jsonDecodeError => .ok (Json.obj [])
  | .error e => .error e

/-- `CONFIG_FILE` (main.py line 21) after `os.path.expanduser`. -/
def configFilePath : String := "~/.config/mqtt-dashboard/config.json"

/-- Writing a file (the `json.dump(self.config, f)` of `_save_config`). -/
def fsWrite (fs : FileSys) (path : String) (c : FileContent) : FileSys :=
  fun q => if q = path then .file c else fs q

/-- The JSON document `_save_config` builds (main.py lines 338-345):
`{"host": ..., "port": ..., "subscriptions": [{"topic": t, "type": w.widget_type}, ...]}`. -/
def configJson (host : String) (port : Int) (reg : Registry) : Json :=
  Json.obj
    [("host", Json.str host),
     ("port", Json.int port),
     ("subscriptions",
      Json.arr (reg.map fun e =>
        Json.obj [("topic", Json.str e.1), ("type", Json.str e.2.widgetType)]))]

/-- `MqttDashboardWindow._save_config` (main.py lines 337-348): build the
config document and write it to `CONFIG_FILE`. `int(self.port_entry.get_text())`
is Python `int(...)`, modelled by the `parseInt` boundary function; its
`ValueError` propagates (result `none`). -/
def saveConfig (parseInt : String → Option Int) (st : WindowState)
    (fs : FileSys) : Option (Json × FileSys) :=
  match parseInt st.portText with
  | none => none
  | some n =>
    let cfg := configJson st.hostText n st.topicWidgets
    some (cfg, fsWrite fs configFilePath (.wellFormed cfg))

/-- `dict.get` on a JSON object (`none` when the value is not an object or
the key is absent). -/
def Json.getField : Json → String → Option Json
  | .obj kvs, k => kvs.lookup k
  | _, _ => none

/-- One step of the restore loop (main.py line 233):
`sub["topic"]` (a `KeyError` or non-string shape gives `none`) and
`sub.get("type", "text")`. -/
def subEntry : Json → Option (String × String)
  | .obj kvs =>
    match kvs.lookup "topic", kvs.lookup "type" with
    | some (.str t), some (.str k) => some (t, k)
    | some (.str t), none => some (t, "text")
    | _, _ => none
  | _ => none

/-- The restore loop over a subscription array, in order. -/
def collectSubs : List Json → Option (List (String × String))
  | [] => some []
  | j :: js =>
    match subEntry j, collectSubs js with
    | some e, some es => some (e :: es)
    | _, _ => none

/-- The subscription list read back from a loaded config
(`config.get("subscriptions", [])`, then the restore loop; main.py lines
232-233). -/
def subsOfJson (j : Json) : Option (List (String × String)) :=
  match j.getField "subscriptions" with
  | some (.arr items) => collectSubs items
  | none => some []
  | some _ => none

theorem collectSubs_configJson (reg : Registry) :
    collectSubs (reg.map fun e =>
        Json.obj [("topic", Json.str e.1), ("type", Json.str e.2.widgetType)]) =
      some (reg.map fun e => (e.1, e.2.widgetType)) := by
  induction reg with
  | nil => rfl
  | cons e reg ih => simp [collectSubs, subEntry, List.lookup, ih]

theorem subsOfJson_configJson (host : String) (port : Int) (reg : Registry) :
    subsOfJson (configJson host port reg) =
      some (reg.map fun e => (e.1, e.2.widgetType)) := by
  unfold subsOfJson configJson Json.getField
  simp [List.lookup, collectSubs_configJson]

/-! ## Claim theorems -/

/-- C1: for every pattern `P` containing no `"#"` segment and every topic
`T`, `matches(P, T)` is true iff `P` and `T` split on `"/"` into the same
number of segments and, at every index, the pattern segment is `"+"` or
equal to the topic segment at that index. -/
theorem claim1_no_hash_match_iff (P T : String) (hP : "#" ∉ splitSlash P) :
    topicMatches P T = true ↔
      ((splitSlash P).length = (splitSlash T).length ∧
        ∀ i, (h1 : i < (splitSlash P).length) →
          (h2 : i < (splitSlash T).length) →
          (splitSlash P)[i] = "+" ∨ (splitSlash P)[i] = (splitSlash T)[i]) := by
  have hne : P ≠ "#" := by
    intro hc
    subst hc
    exact hP (by decide)
  unfold topicMatches
  rw [if_neg hne]
  exact matchSegs_no_hash _ _ hP

theorem claim1_witness :
    "#" ∉ (splitSlash "a/+/c") ∧
      (topicMatches "a/+/c" "a/b/c" = true ↔
        ((splitSlash "a/+/c").length = (splitSlash "a/b/c").length ∧
          ∀ i, (h1 : i < (splitSlash "a/+/c").length) →
            (h2 : i < (splitSlash "a/b/c").length) →
            (splitSlash "a/+/c")[i] = "+" ∨
              (splitSlash "a/+/c")[i] = (splitSlash "a/b/c")[i])) :=
  ⟨by decide, claim1_no_hash_match_iff "a/+/c" "a/b/c" (by decide)⟩

/-- C2: the multi-level wildcard terminates matching successfully:
`matches("#", T)` is true for every topic, a walk that reaches a `"#"`
pattern segment returns true however many topic segments remain (including
zero), and in particular `matches("a/#", "a")`, `matches("a/#", "a/b/c")`
and `matches("a/+/c", "a/b/c")` are true while `matches("a/+/c", "a/b/b/c")`
is false. -/
theorem claim2_hash_wildcard :
    (∀ t : String, topicMatches "#" t = true) ∧
    (∀ P T : String, ∀ j : Nat, (hj : j < (splitSlash P).length) →
      j ≤ (splitSlash T).length →
      (splitSlash P)[j] = "#" →
      (∀ i, (h1 : i < j) → (h2 : i < (splitSlash P).length) →
        (h3 : i < (splitSlash T).length) →
        (splitSlash P)[i] = "+" ∨ (splitSlash P)[i] = (splitSlash T)[i]) →
      topicMatches P T = true) ∧
    topicMatches "a/#" "a" = true ∧
    topicMatches "a/#" "a/b/c" = true ∧
    topicMatches "a/+/c" "a/b/c" = true ∧
    topicMatches "a/+/c" "a/b/b/c" = false := by
  refine ⟨topicMatches_hash_all, ?_, by decide, by decide, by decide, by decide⟩
  intro P T j hj hjt hhash hpre
  unfold topicMatches
  split
  · rfl
  · exact matchSegs_hash_reached _ _ j hj hjt hhash hpre

theorem claim2_witness : topicMatches "x/y/#" "x/y" = true :=
  claim2_hash_wildcard.2.1 "x/y/#" "x/y" 2 (by decide) (by decide) (by decide)
    (by decide)

/-- C4: for every gauge state and payload, a payload that does not parse as
a float leaves the gauge value unchanged, and a payload parsing to `q`
stores `q` clamped to `[0, 100]`: the stored value lies in `[0, 100]`, is
`q` itself when `q` is in range, `0` when `q < 0` and `100` when
`q > 100`. -/
theorem claim4_gauge_set_value (v : ℚ) (p : Payload) :
    (p.parsed = none → setValue v p = v) ∧
    (∀ q, p.parsed = some q →
      (0 ≤ setValue v p ∧ setValue v p ≤ 100) ∧
      (0 ≤ q → q ≤ 100 → setValue v p = q) ∧
      (q < 0 → setValue v p = 0) ∧
      (100 < q → setValue v p = 100)) := by
  constructor
  · intro h
    simp [setValue, h]
  · intro q h
    simp only [setValue, h]
    refine ⟨⟨le_max_left _ _, max_le (by norm_num) (min_le_left _ _)⟩, ?_, ?_, ?_⟩
    · intro h0 h100
      rw [min_eq_right h100, max_eq_right h0]
    · intro hq
      rw [min_eq_right (le_of_lt (lt_of_lt_of_le hq (by norm_num))),
        max_eq_left (le_of_lt hq)]
    · intro hq
      rw [min_eq_left (le_of_lt hq)]
      norm_num

theorem claim4_witness :
    setValue 7 ⟨"oops", none⟩ = 7 ∧ setValue 7 ⟨"150", some 150⟩ = 100 :=
  ⟨(claim4_gauge_set_value 7 ⟨"oops", none⟩).1 rfl,
   ((claim4_gauge_set_value 7 ⟨"150", some 150⟩).2 150 rfl).2.2.2 (by norm_num)⟩

/-- C5: registering a pattern already present in the registry is an
idempotent no-op: the registry is returned unchanged, so its size is
unchanged and every existing entry (kind and live state) is preserved, and
no error is possible. -/
theorem claim5_add_duplicate_noop (reg : Registry) (t k : String)
    (h : reg.any (fun e => e.1 == t) = true) :
    addTopicWidget reg t k = reg ∧
    (addTopicWidget reg t k).length = reg.length ∧
    (addTopicWidget reg t k).lookup t = reg.lookup t := by
  have he : addTopicWidget reg t k = reg := by
    simp [addTopicWidget, h]
  exact ⟨he, by rw [he], by rw [he]⟩

theorem claim5_witness :
    addTopicWidget [("a", newTopicWidget "a" "gauge")] "a" "text" =
        [("a", newTopicWidget "a" "gauge")] ∧
      (addTopicWidget [("a", newTopicWidget "a" "gauge")] "a" "text").length =
        [("a", newTopicWidget "a" "gauge")].length ∧
      (addTopicWidget [("a", newTopicWidget "a" "gauge")] "a" "text").lookup "a" =
        [("a", newTopicWidget "a" "gauge")].lookup "a" :=
  claim5_add_duplicate_noop [("a", newTopicWidget "a" "gauge")] "a" "text" rfl

/-- C3: the sparkline history never exceeds its capacity of 50, and
eviction is FIFO: after feeding capacity+1 = 51 numeric samples to an
initially empty history, the result is exactly the last 50 samples, so the
first (oldest) sample — when distinct from the later ones — is gone and the
last (newest) sample is present. -/
theorem claim3_sparkline_bounded_fifo :
    (∀ ps : List Payload, (List.foldl addValue [] ps).length ≤ 50) ∧
    (∀ (x : ℚ) (xs : List ℚ) (texts : List String),
      texts.length = 51 → xs.length = 50 → x ∉ xs →
      List.foldl addValue []
          (List.zipWith Payload.mk texts ((x :: xs).map some)) = xs ∧
      x ∉ List.foldl addValue []
          (List.zipWith Payload.mk texts ((x :: xs).map some)) ∧
      ∀ l, (x :: xs).getLast? = some l →
        l ∈ List.foldl addValue []
          (List.zipWith Payload.mk texts ((x :: xs).map some))) := by
  constructor
  · intro ps
    exact foldl_addValue_length_le ps [] (by simp)
  · intro x xs texts ht hx hnot
    have hfold : List.foldl addValue []
        (List.zipWith Payload.mk texts ((x :: xs).map some)) = xs := by
      have := foldl_addValue_num (x :: xs) [] texts (by simp)
        (by simp [ht, hx])
      rw [this]
      simp [hx]
    refine ⟨hfold, by rw [hfold]; exact hnot, ?_⟩
    intro l hl
    rw [hfold]
    cases xs with
    | nil => simp at hx
    | cons y ys =>
      rw [List.getLast?_cons_cons] at hl
      obtain ⟨hne, hx2⟩ := List.mem_getLast?_eq_getLast hl
      rw [hx2]
      exact List.getLast_mem hne

theorem claim3_witness :
    List.foldl addValue []
        (List.zipWith Payload.mk (List.replicate 51 "1")
          ((0 :: List.replicate 50 (1 : ℚ)).map some)) = List.replicate 50 (1 : ℚ) ∧
      (0 : ℚ) ∉ List.foldl addValue []
        (List.zipWith Payload.mk (List.replicate 51 "1")
          ((0 :: List.replicate 50 (1 : ℚ)).map some)) ∧
      ∀ l, (0 :: List.replicate 50 (1 : ℚ)).getLast? = some l →
        l ∈ List.foldl addValue []
          (List.zipWith Payload.mk (List.replicate 51 "1")
            ((0 :: List.replicate 50 (1 : ℚ)).map some)) :=
  claim3_sparkline_bounded_fifo.2 0 (List.replicate 50 1) (List.replicate 51 "1")
    (by simp) (by simp) (by simp)

theorem updateWidget_tsLabel (w : Widget) (p : Payload) (now : String) :
    (updateWidget w p now).tsLabel = now := by
  unfold updateWidget
  by_cases hg : w.widgetType = "gauge"
  · simp [hg]
  · by_cases hs : w.widgetType = "sparkline" <;> simp [hg, hs]

theorem updateWidget_valueLabel (w : Widget) (p : Payload) (now : String) :
    (updateWidget w p now).valueLabel = p.text.take 500 := by
  unfold updateWidget
  by_cases hg : w.widgetType = "gauge"
  · simp [hg]
  · by_cases hs : w.widgetType = "sparkline" <;> simp [hg, hs]

/-- C6: routing one inbound message updates every matching subscription
exactly once each, independently: with `"sensor/+/room1"` and `"sensor/#"`
registered, a message on `"sensor/temp/room1"` maps each of the two widgets
through `updateWidget` exactly once, and regardless of whether the payload
parses, every updated widget still receives its label and timestamp update
(a parse failure never prevents the other subscription's update). -/
theorem claim6_route_updates_each_match_once (w1 w2 : Widget)
    (log : List String) (p : Payload) (now : String) :
    handleMessage [("sensor/+/room1", w1), ("sensor/#", w2)] log
        "sensor/temp/room1" p now =
      ([("sensor/+/room1", updateWidget w1 p now),
        ("sensor/#", updateWidget w2 p now)],
       log ++ ["[" ++ now ++ "] " ++ "sensor/temp/room1" ++ ": " ++ p.text]) ∧
    (updateWidget w1 p now).tsLabel = now ∧
    (updateWidget w2 p now).tsLabel = now ∧
    (updateWidget w1 p now).valueLabel = p.text.take 500 ∧
    (updateWidget w2 p now).valueLabel = p.text.take 500 := by
  have m1 : topicMatches "sensor/+/room1" "sensor/temp/room1" = true := by decide
  have m2 : topicMatches "sensor/#" "sensor/temp/room1" = true := by decide
  refine ⟨?_, updateWidget_tsLabel w1 p now, updateWidget_tsLabel w2 p now,
    updateWidget_valueLabel w1 p now, updateWidget_valueLabel w2 p now⟩
  simp [handleMessage, m1, m2]

/-- C7 (amended): config load does not raise only for the two conditions
`_load_config` catches — a missing file (`FileNotFoundError`) and content
that decodes but is invalid JSON (`json.JSONDecodeError`) yield the empty
config `{}`, and a well-formed document is returned as is; but content that
is not decodable as UTF-8 raises `UnicodeDecodeError` to the caller, and an
unreadable path or a directory raises `PermissionError` /
`IsADirectoryError`. -/
theorem claim7_load_config_catches (fs : FileSys) (path : String) :
    (fs path = .missing → loadConfig fs path = .ok (Json.obj [])) ∧
    (fs path = .file .malformedJson → loadConfig fs path = .ok (Json.obj [])) ∧
    (∀ j, fs path = .file (.wellFormed j) → loadConfig fs path = .ok j) ∧
    (fs path = .file .undecodable →
      loadConfig fs path = .error .unicodeDecodeError) ∧
    (fs path = .unreadable → loadConfig fs path = .error .permissionError) ∧
    (fs path = .directory → loadConfig fs path = .error .isADirectoryError) := by
  unfold loadConfig openAndParse
  exact ⟨fun h => by rw [h], fun h => by rw [h], fun j h => by rw [h],
    fun h => by rw [h], fun h => by rw [h], fun h => by rw [h]⟩

/-- C7 counterexample: a config file whose bytes are not valid UTF-8 is
malformed content, yet `_load_config` does not return a default config
there — the `UnicodeDecodeError` propagates to the caller, so load can
raise. -/
theorem claim7_counterexample :
    loadConfig (fun _ => PathState.file .undecodable) configFilePath =
      .error PyErr.unicodeDecodeError := rfl

theorem claim7_witness :
    loadConfig (fun _ => PathState.missing) configFilePath =
      .ok (Json.obj []) :=
  (claim7_load_config_catches (fun _ => PathState.missing) configFilePath).1 rfl

/-- C8: save followed by load round-trips the subscription set: whenever the
port text parses, `_save_config` succeeds, `_load_config` on the written
filesystem returns exactly the saved document, and the subscriptions read
back from it are exactly the registry's `(pattern, kind)` pairs, in order —
in particular an equal set, for any duplicate-free registry. -/
theorem claim8_config_roundtrip (parseInt : String → Option Int)
    (st : WindowState) (fs : FileSys) (n : Int)
    (hp : parseInt st.portText = some n) :
    ∃ cfg fs2, saveConfig parseInt st fs = some (cfg, fs2) ∧
      loadConfig fs2 configFilePath = .ok cfg ∧
      subsOfJson cfg = some (st.topicWidgets.map fun e => (e.1, e.2.widgetType)) := by
  refine ⟨configJson st.hostText n st.topicWidgets,
    fsWrite fs configFilePath (.wellFormed (configJson st.hostText n st.topicWidgets)),
    ?_, ?_, subsOfJson_configJson _ _ _⟩
  · simp [saveConfig, hp]
  · simp [loadConfig, openAndParse, fsWrite]

theorem claim8_witness :
    ∃ cfg fs2,
      saveConfig (fun _ => some 1883)
        ⟨"localhost", "1883", "",
          (0 : Fin 3), false,
          [("sensor/temp", newTopicWidget "sensor/temp" "gauge"),
           ("a/#", newTopicWidget "a/#" "text")]⟩ (fun _ => PathState.missing) =
        some (cfg, fs2) ∧
      loadConfig fs2 configFilePath = .ok cfg ∧
      subsOfJson cfg =
        some ([("sensor/temp", newTopicWidget "sensor/temp" "gauge"),
               ("a/#", newTopicWidget "a/#" "text")].map
          fun e => (e.1, e.2.widgetType)) :=
  claim8_config_roundtrip (fun _ => some 1883)
    ⟨"localhost", "1883", "", (0 : Fin 3), false,
      [("sensor/temp", newTopicWidget "sensor/temp" "gauge"),
       ("a/#", newTopicWidget "a/#" "text")]⟩ (fun _ => PathState.missing) 1883 rfl

/-- C9: the exact-equality fast path of `_handle_message` is equivalent to
the general matcher: every pattern matches itself, so the routing predicate
`topic == t or matches(t, topic)` equals `matches(t, topic)` and both
predicates select the same subscriptions from any registry. -/
theorem claim9_exact_fast_path_equiv :
    (∀ p : String, topicMatches p p = true) ∧
    (∀ p t : String, (t == p || topicMatches p t) = topicMatches p t) ∧
    (∀ (reg : Registry) (t : String),
      reg.filter (fun e => t == e.1 || topicMatches e.1 t) =
        reg.filter (fun e => topicMatches e.1 t)) := by
  have hor : ∀ p t : String, (t == p || topicMatches p t) = topicMatches p t := by
    intro p t
    by_cases h : t = p
    · subst h
      simp [topicMatches_refl]
    · have hb : (t == p) = false := by
        simpa using h
      simp [hb]
  refine ⟨topicMatches_refl, hor, ?_⟩
  intro reg t
  apply List.filter_congr
  intro e _
  exact hor e.1 t

/-- C10: a subscribe action whose entered pattern strips to the empty string
is a complete no-op (state unchanged, no widget created, no transport
subscribe call); consequently the empty pattern never enters the registry
through the subscribe action. -/
theorem claim10_empty_subscribe_noop (st : WindowState) :
    (pyStrip st.subText = "" → subscribeTopic st = (st, [])) ∧
    ("" ∉ st.topicWidgets.map Prod.fst →
      "" ∉ ((subscribeTopic st).1.topicWidgets).map Prod.fst) := by
  constructor
  · intro h
    simp [subscribeTopic, h]
  · intro h
    by_cases ht : pyStrip st.subText = ""
    · simpa [subscribeTopic, ht] using h
    · intro hmem
      have hreg : (subscribeTopic st).1.topicWidgets =
          addTopicWidget st.topicWidgets (pyStrip st.subText)
            (["text", "gauge", "sparkline"].get st.typeSelected) := by
        simp [subscribeTopic, ht]
      rw [hreg, addTopicWidget] at hmem
      split at hmem
      · exact h hmem
      · rw [List.map_append, List.mem_append] at hmem
        rcases hmem with hmem | hmem
        · exact h hmem
        · simp at hmem
          exact ht hmem.symm

theorem claim10_witness :
    subscribeTopic ⟨"localhost", "1883", "   ", (0 : Fin 3), true, []⟩ =
      (⟨"localhost", "1883", "   ", (0 : Fin 3), true, []⟩, []) :=
  (claim10_empty_subscribe_noop
    ⟨"localhost", "1883", "   ", (0 : Fin 3), true, []⟩).1 (by decide)

end MqttDashboard
